import Mathlib

/-!
Verification development for the patent-search browser client
(`js/api.js`, `js/app.js` + `js/utils.js`, `js/ui.js`, `js/search.js`,
`js/chat.js`, `js/excel.js`).

The JavaScript source is shallowly embedded: each class's mutable fields
become fields of an explicit state structure, each method becomes a pure
function from the state (plus its inputs and the outcome of any network
exchange it performs) to the new state, and every network request the
method issues is recorded in an explicit trace.  JS truthiness on the
dynamic values that actually flow through the modelled code (strings,
arrays, numbers, null/undefined) is embedded via a small `JSVal` type and
`Option`-valued record fields.
-/

namespace PatentSearch


/-- A JS dynamic value as used by the modelled code: `null`/`undefined`,
a string, an array of strings, or a number. -/
inductive JSVal where
  | null : JSVal
  | str : String → JSVal
  | arr : List String → JSVal
  | num : Nat → JSVal
deriving DecidableEq

/-- JS truthiness for `JSVal`: `null`/`undefined` and `""` and `0` are falsy;
every array (including `[]`) is truthy. -/
def jsTruthy : JSVal → Bool
  | .null => false
  | .str s => s ≠ ""
  | .arr _ => true
  | .num n => n ≠ 0

/-- JS `a || b` on dynamic values. -/
def jsOr (a b : JSVal) : JSVal := if jsTruthy a then a else b

/-- JS string conversion of a `JSVal` as performed by template literals:
arrays stringify as their comma-join, `null` as `"null"`. -/
def jsToString : JSVal → String
  | .null => "null"
  | .str s => s
  | .arr xs => String.intercalate "," xs
  | .num n => toString n

/-- Truthiness of an optional string field of a JSON object: the field is
truthy when present and nonempty (JS `obj.field` is `undefined` when
absent, falsy when `""`). -/
def jsTruthyStr : Option String → Bool
  | some s => s ≠ ""
  | none => false

/-- JS `field || default` for an optional string field. -/
def jsOrStr (o : Option String) (d : String) : String :=
  match o with
  | some s => if s = "" then d else s
  | none => d

/-- `Utils.safeStringValue` (utils.js): `null`/`undefined` become `"N/A"`,
strings stay unless empty, arrays are joined with `"; "` (empty join also
becomes `"N/A"`), other values are stringified. -/
def safeStringValue : JSVal → String
  | .null => "N/A"
  | .str s => if s = "" then "N/A" else s
  | .arr xs =>
      let j := String.intercalate "; " xs
      if j = "" then "N/A" else j
  | .num n => toString n

/-- `Utils.safeTruncateText` (utils.js): pass `"N/A"` through, keep short
strings, otherwise truncate to `maxLength - 3` characters and append
`"..."`.  JS indexes UTF-16 units; for the BMP strings handled here this
coincides with character counts. -/
def safeTruncateText (v : JSVal) (maxLength : Nat) : String :=
  let s := safeStringValue v
  if s = "N/A" then s
  else if s.length ≤ maxLength then s
  else (s.take (maxLength - 3)) ++ "..."

/-- `Utils.formatArrayField` (utils.js): arrays are joined with `"; "`,
non-arrays pass through (`arr || ''`). -/
def formatArrayField : JSVal → String
  | .arr xs => String.intercalate "; " xs
  | v => if jsTruthy v then jsToString v else ""

/-- Drop the first occurrence of the `'×'` character, as JS
`String.prototype.replace('×','')` does on the dropped-keyword span text. -/
def removeFirstMark : List Char → List Char
  | [] => []
  | c :: cs => if c = '×' then cs else c :: removeFirstMark cs

/-- Strip leading and trailing whitespace, as JS `String.prototype.trim`
does on the whitespace that occurs in the modelled strings. -/
def trimChars (cs : List Char) : List Char :=
  ((cs.dropWhile Char.isWhitespace).reverse.dropWhile Char.isWhitespace).reverse

/-- JS `s.trim()`. -/
def jsTrim (s : String) : String := ⟨trimChars s.data⟩

/-- The text that comes back out of a dropped-keyword DOM span for a
keyword `k`: the span's `textContent` is `k ++ " ×"` (keyword, space,
remove button), and the reader applies `.replace('×','').trim()`
(search.js `addKeywordToDropZone` / `collectSearchConditions`). -/
def readback (k : String) : String :=
  ⟨trimChars (removeFirstMark (k ++ " ×").data)⟩

/-- A keyword is *clean* when the dropped-keyword span round-trip returns it
unchanged (no leading/trailing whitespace, no `'×'` character). -/
def Clean (k : String) : Prop := readback k = k

instance (k : String) : Decidable (Clean k) := by
  unfold Clean; infer_instance

/-! ## ConditionBuilder: condition rows (search.js)

A condition row is one `.condition-row` DOM element: its drop zone (the raw
keyword texts of its `.dropped-keyword` spans, in insertion order), its
field `<select>` (`"TI"`, `"AB"`, `"CL"`; first option `"TI"` selected by
default) and its logic `<select>` (`"AND"`, `"OR"`; `"AND"` by default). -/

structure ConditionRow where
  dropped : List String
  field : String
  logic : String
deriving DecidableEq

/-- A freshly created condition row (`createConditionRow`): empty drop zone,
both selects on their first option. -/
def emptyConditionRow : ConditionRow := ⟨[], "TI", "AND"⟩

/-- `SearchManager.addKeywordToDropZone` (search.js:169): read the texts of
the existing spans back (`textContent.replace('×','').trim()`), and append
the keyword only when that list does not already contain it verbatim. -/
def addKeywordToDropZone (zone : List String) (keyword : String) : List String :=
  if (zone.map readback).contains keyword then zone else zone ++ [keyword]

/-- Group of a primary keyword and its synonyms, as delivered by the
keyword-generation endpoint (`keywords_with_synonyms[{keyword,synonyms[]}]`). -/
structure KeywordGroup where
  keyword : String
  synonyms : List String
deriving DecidableEq

/-- The terms `autoGenerateConditions` collects for one group: the primary
keyword when truthy, then all synonyms. -/
def groupTerms (g : KeywordGroup) : List String :=
  (if g.keyword ≠ "" then [g.keyword] else []) ++ g.synonyms

/-- Enumerate a list with indices starting at `n` (JS `forEach` index). -/
def enumIdx : Nat → List α → List (Nat × α)
  | _, [] => []
  | n, a :: as => (n, a) :: enumIdx (n + 1) as

/-- Fill one condition row for a keyword group inside
`autoGenerateConditions`: drop every term into the zone, force the field
select to `"AB"` (abstract), and force the logic select to `"AND"` for
every group except the last (the last row keeps its current selection). -/
def fillConditionRow (n groupIndex : Nat) (terms : List String)
    (row : ConditionRow) : ConditionRow :=
  { dropped := terms.foldl addKeywordToDropZone row.dropped
    field := "AB"
    logic := if groupIndex < n - 1 then "AND" else row.logic }

/-- One iteration of the `generatedKeywords.forEach` loop of
`autoGenerateConditions`: skip groups with no terms; the group at index 0
fills the (first) existing row, later groups append a freshly created row. -/
def autoGenStep (n : Nat) (rows : List ConditionRow) (ig : Nat × KeywordGroup) :
    List ConditionRow :=
  let groupIndex := ig.1
  let allTerms := groupTerms ig.2
  if allTerms.length = 0 then rows
  else if groupIndex = 0 then
    match rows with
    | [] => rows
    | r :: rest => fillConditionRow n groupIndex allTerms r :: rest
  else rows ++ [fillConditionRow n groupIndex allTerms emptyConditionRow]

/-- Result of `autoGenerateConditions`: the condition rows left in the DOM
plus the error reported (shown to the user, not thrown) if any. -/
structure BuilderResult where
  rows : List ConditionRow
  errorReported : Option String
deriving DecidableEq

/-- `SearchManager.clearAllConditions` (search.js:259) leaves exactly one
empty condition row with both selects reset to their first option. -/
def clearAllConditions : List ConditionRow := [emptyConditionRow]

/-- `SearchManager.autoGenerateConditions` (search.js:295): clear all rows
first, then report an error when there are no keyword groups, otherwise
fill one row per group as in `autoGenStep`. -/
def autoGenerateConditions (generatedKeywords : List KeywordGroup) : BuilderResult :=
  let rows := clearAllConditions
  if generatedKeywords.length = 0 then
    { rows := rows, errorReported := some "沒有可用的關鍵字組合" }
  else
    { rows := (enumIdx 0 generatedKeywords).foldl
        (autoGenStep generatedKeywords.length) rows
      errorReported := none }

/-- A collected search condition (search.js:369). -/
structure SearchCondition where
  keywords : List String
  field : String
  logic : String
  condition_index : Nat
deriving DecidableEq

/-- `SearchManager.collectSearchConditions` (search.js:354): for every row
with at least one dropped span, read the span texts back, drop empty ones,
and keep the row when keywords remain. -/
def collectSearchConditions (rows : List ConditionRow) : List SearchCondition :=
  (enumIdx 0 rows).foldl
    (fun acc ir =>
      let row := ir.2
      if row.dropped.length > 0 then
        let keywords := (row.dropped.map readback).filter (fun kw => kw ≠ "")
        if keywords.length > 0 then
          acc ++ [{ keywords := keywords, field := row.field, logic := row.logic
                    condition_index := ir.1 }]
        else acc
      else acc)
    []

/-- Replace the element at index `i` (no-op when out of range). -/
def updateAt : List α → Nat → (α → α) → List α
  | [], _, _ => []
  | a :: as, 0, f => f a :: as
  | a :: as, n + 1, f => a :: updateAt as n f

/-- The abstract "assign keyword to condition `i`" command: the drop handler
routes the dragged keyword to row `i`'s drop zone
(`handleDrop` → `addKeywordToDropZone`). -/
def assign (rows : List ConditionRow) (i : Nat) (k : String) : List ConditionRow :=
  updateAt rows i (fun r => { r with dropped := addKeywordToDropZone r.dropped k })

/-- Apply a sequence of assign commands in order. -/
def applyAssigns (rows : List ConditionRow) (ops : List (Nat × String)) :
    List ConditionRow :=
  ops.foldl (fun rs ik => assign rs ik.1 ik.2) rows

/-- A builder with `n` condition rows, all empty (the state after adding
rows with `addConditionRow` and before any drop). -/
def initRows (n : Nat) : List ConditionRow := List.replicate n emptyConditionRow

/-- The keywords that a sequence of assign commands routes to row `i`. -/
def opsFor (i : Nat) (ops : List (Nat × String)) : List String :=
  ops.filterMap (fun p => if p.1 = i then some p.2 else none)

/-- The search condition which `collectSearchConditions` builds from a
well-formed row. -/
def rowCondition (ir : Nat × ConditionRow) : SearchCondition :=
  { keywords := ir.2.dropped, field := ir.2.field, logic := ir.2.logic
    condition_index := ir.1 }

/-- Default keyword group (used only as a `getD` fallback). -/
def defaultGroup : KeywordGroup := ⟨"", []⟩

/-- Default search condition (used only as a `getD` fallback). -/
def defaultSearchCondition : SearchCondition := ⟨[], "", "", 0⟩

/-! ## RequestClient: `APIService.requestWithRetry` (api.js:378)

The JS loop runs `i` from `0` to `maxRetries`, attempting the request on
each iteration; on failure it rethrows when `i === maxRetries`, otherwise
waits `delay` ms and doubles `delay`.  The embedding recurses on
`remaining = maxRetries - i`, so `remaining = 0` is exactly the JS check
`i === maxRetries`; each performed wait is recorded in `delays`. -/

structure RetryTrace (α : Type) where
  attempts : Nat
  delays : List Nat
  result : Except String α

instance [DecidableEq ε] [DecidableEq α] : DecidableEq (Except ε α) :=
  fun a b =>
    match a, b with
    | .ok x, .ok y =>
        if h : x = y then .isTrue (by rw [h])
        else .isFalse (fun hc => h (by injection hc))
    | .error x, .error y =>
        if h : x = y then .isTrue (by rw [h])
        else .isFalse (fun hc => h (by injection hc))
    | .ok _, .error _ => .isFalse (fun hc => Except.noConfusion hc)
    | .error _, .ok _ => .isFalse (fun hc => Except.noConfusion hc)

instance [DecidableEq α] : DecidableEq (RetryTrace α) :=
  fun a b =>
    decidable_of_iff
      (a.attempts = b.attempts ∧ a.delays = b.delays ∧ a.result = b.result)
      (by cases a; cases b; rw [RetryTrace.mk.injEq])

def retryLoop (outcome : Nat → Except String α) :
    Nat → Nat → Nat → RetryTrace α
  | i, _, 0 =>
    match outcome i with
    | .ok v => ⟨i + 1, [], .ok v⟩
    | .error e => ⟨i + 1, [], .error e⟩
  | i, delay, r + 1 =>
    match outcome i with
    | .ok v => ⟨i + 1, [], .ok v⟩
    | .error _ =>
        let t := retryLoop outcome (i + 1) (delay * 2) r
        ⟨t.attempts, delay :: t.delays, t.result⟩

/-- `APIService.requestWithRetry(endpoint, options, maxRetries, delay)`:
`outcome j` is the result of the `j`-th underlying `request` attempt
against the endpoint. -/
def requestWithRetry (outcome : Nat → Except String α)
    (maxRetries delay : Nat) : RetryTrace α :=
  retryLoop outcome 0 delay maxRetries

/-! ## Backend response data and `APIService.request` (api.js:26) -/

/-- `memory_status` object of the memory-status endpoint. -/
structure MemoryStatus where
  memory_count : Option Nat
  has_db_history : Option Bool
  has_search_cache : Option Bool

/-- A patent record is a JSON object; the modelled code only ever reads
string-keyed fields from it. -/
def Patent := String → JSVal

/-- The JSON body of a backend response, restricted to the fields the
modelled code reads.  Absent fields are `none` (JS `undefined`). -/
structure RespData where
  success : Option Bool := none
  detail : Option String := none
  message : Option String := none
  session_id : Option String := none
  keywords_with_synonyms : Option (List KeywordGroup) := none
  search_results : Option (List Patent) := none
  results : Option (List Patent) := none
  total_found : Option Nat := none
  memory_status : Option MemoryStatus := none

/-- JS truthiness of a possibly absent boolean field
(`if (response.success)`). -/
def jsTruthyBool : Option Bool → Bool
  | some b => b
  | none => false

/-- The transport-level outcome of a `fetch`: HTTP status information and
the result of `response.json()` (`none` when the body is not valid JSON). -/
structure HttpResponse where
  ok : Bool
  status : Nat
  statusText : String
  body : Option RespData

/-- The error message `APIService.request` builds for a non-ok response
(api.js:47-56): when the body parses, `errorData.detail ||
errorData.message || ` the string `HTTP <status>`; when `response.json()`
throws, the string `HTTP <status>: <statusText>`. -/
def requestErrorDetail (r : HttpResponse) : String :=
  match r.body with
  | some errorData =>
      jsOrStr errorData.detail
        (jsOrStr errorData.message ("HTTP " ++ toString r.status))
  | none => "HTTP " ++ toString r.status ++ ": " ++ r.statusText

/-- Stand-in for the message of the `SyntaxError` that `response.json()`
rejects with on an ok response whose body is not JSON; its exact text is
produced by the JS runtime, not by this code. -/
def jsonDecodeFailure : String := "SyntaxError: JSON parse failure"

/-- `APIService.request` (api.js:26): return the decoded body of an ok
response, fail with `requestErrorDetail` on a non-ok response, and
propagate the decode failure on an ok response with a non-JSON body. -/
def request (r : HttpResponse) : Except String RespData :=
  if r.ok then
    match r.body with
    | some data => .ok data
    | none => .error jsonDecodeFailure
  else .error (requestErrorDetail r)

/-- Modelled from the spec wording of the error-normalization precedence
(`detail → message → status text → generic fallback`), for comparison
with what `request` actually produces. -/
def specNormalizedMessage (r : HttpResponse) : String :=
  jsOrStr (r.body.bind (fun b => b.detail))
    (jsOrStr (r.body.bind (fun b => b.message))
      (if r.statusText ≠ "" then r.statusText else "未知錯誤"))

/-! ## The application state

One flat structure holds the mutable fields of the module-level singletons
`patentSearchApp` (app.js), `searchManager` (search.js) and `excelManager`
(excel.js), plus the progress-bar DOM state managed by `uiManager`
(ui.js).  A missing session id (`null` in JS) is modelled as `""` (both
are falsy where the code tests them).  `chatManager` is modelled
separately below; the app only ever sets its session id and enables it,
which is mirrored by the `chatSessionId`/`chatEnabled` fields here. -/

/-- One progress bar: its displayed percentage and whether a simulated
progress interval is running.  `updateProgress` sets the percentage,
`startProgressAnimation` starts the interval (its later timer ticks are
real-time behavior outside this model), `completeProgress` stops the
interval and snaps to 100, `resetProgress` stops the interval and snaps
to 0. -/
structure Progress where
  pct : Nat
  anim : Bool
deriving DecidableEq

/-- The state `uiManager.resetProgress` leaves a progress bar in. -/
def progressReset : Progress := ⟨0, false⟩

structure Sys where
  isSearching : Bool
  appTechResults : Option (List Patent)
  appConditionResults : Option (List Patent)
  appExcelResults : Option (List Patent)
  appSessionId : String
  apiKeyVerified : Bool
  progressTech : Progress
  progressCondition : Progress
  progressExcel : Progress
  chatEnabled : Bool
  chatSessionId : String
  smGeneratedKeywords : List KeywordGroup
  smSessionId : String
  smTechResults : Option (List Patent)
  smConditionResults : Option (List Patent)
  conditionRows : List ConditionRow
  excelProcessing : Bool
  excelSelectedFile : Option String
  excelAnalysisResults : Option RespData

/-- Result of running one user-initiated workflow: the new state, the
endpoints of the network requests it issued (in order), and the error
message shown to the user, if any. -/
structure StepResult where
  state : Sys
  calls : List String
  errorShown : Option String

def keywordsEndpoint : String :=
  "/api/v1/patents/keywords/generate-for-confirmation"

def confirmedSearchEndpoint : String :=
  "/api/v1/patents/search/tech-description-confirmed"

def conditionSearchEndpoint : String := "/api/v1/patents/condition/search"

def excelUploadEndpoint : String := "/api/v1/patents/excel/upload-and-analyze"

def clearMemoryEndpoint : String := "/api/v1/patents/qa/clear-memory"

def memoryStatusEndpoint : String := "/api/v1/patents/qa/memory-status"

/-! ## SearchManager operations (search.js) -/

/-- `SearchManager.generateKeywords` (search.js:30): reject descriptions
that are empty or shorter than 50 characters before any network call;
otherwise materialize a session id if absent, call the keyword endpoint,
and on success adopt the server-issued session id and store the keyword
groups. -/
def smGenerateKeywords (s : Sys) (description : String) (freshId : String)
    (net : Except String RespData) :
    Sys × Except String RespData × List String :=
  if description = "" ∨ description.length < 50 then
    (s, .error "技術描述太短，請提供更詳細的描述（至少50個字）", [])
  else
    let s := if s.smSessionId = "" then { s with smSessionId := freshId } else s
    match net with
    | .error e => (s, .error e, [keywordsEndpoint])
    | .ok resp =>
        if jsTruthyBool resp.success then
          ({ s with smSessionId := resp.session_id.getD ""
                    smGeneratedKeywords := resp.keywords_with_synonyms.getD [] },
           .ok resp, [keywordsEndpoint])
        else
          (s, .error (jsOrStr resp.detail (jsOrStr resp.message "關鍵字生成失敗")),
           [keywordsEndpoint])

/-- JS `new Set(...)` insertion-order dedup. -/
def jsSetDedup (l : List String) : List String :=
  l.foldl (fun acc x => if acc.contains x then acc else acc ++ [x]) []

/-- `response.search_results || response.results || []` (search.js:433):
arrays are truthy even when empty, so a present empty list is kept. -/
def jsOrResults (resp : RespData) : List Patent :=
  match resp.search_results with
  | some xs => xs
  | none =>
      match resp.results with
      | some ys => ys
      | none => []

/-- `SearchManager.manualSearch` (search.js:388): validate the collected
conditions and the deduplicated keyword set before the network call; on a
successful response store the result list in the tech slot. -/
def manualSearchSM (s : Sys) (net : Except String RespData) :
    Sys × Except String RespData × List String :=
  let searchConditions := collectSearchConditions s.conditionRows
  if searchConditions.length = 0 then
    (s, .error "請先拖拉關鍵字到搜索條件中", [])
  else
    let emptyConditions := searchConditions.filter
      (fun c => c.keywords.length = 0)
    if emptyConditions.length > 0 then
      (s, .error "請確保每個搜索條件都包含關鍵字", [])
    else
      let allKeywords := searchConditions.foldl
        (fun acc c => acc ++ c.keywords) []
      let uniqueKeywords := (jsSetDedup allKeywords).filter
        (fun kw => kw ≠ "" ∧ jsTrim kw ≠ "")
      if uniqueKeywords.length = 0 then
        (s, .error "沒有有效的關鍵字可用於搜索", [])
      else
        match net with
        | .error e => (s, .error e, [confirmedSearchEndpoint])
        | .ok resp =>
            if jsTruthyBool resp.success then
              ({ s with smTechResults := some (jsOrResults resp) },
               .ok resp, [confirmedSearchEndpoint])
            else
              (s, .error (jsOrStr resp.detail (jsOrStr resp.message "檢索失敗")),
               [confirmedSearchEndpoint])

/-- Form fields of the condition-search tab (all plain strings). -/
structure ConditionForm where
  applicant : String
  inventor : String
  patentNumber : String
  applicationNumber : String
  ipcClass : String
  titleKeyword : String
  abstractKeyword : String
  claimsKeyword : String
  applicationDateFrom : String
  applicationDateTo : String
  publicationDateFrom : String
  publicationDateTo : String

/-- Request parameters of the condition-search endpoint. -/
structure ConditionParams where
  user_code : String
  max_results : Nat
  session_id : String
  applicant : String
  inventor : String
  patent_number : String
  application_number : String
  ipc_class : String
  title_keyword : String
  abstract_keyword : String
  claims_keyword : String
  application_date_from : String
  application_date_to : String
  publication_date_from : String
  publication_date_to : String

/-- `SearchManager.buildConditionSearchParams` (search.js:560); the
`|| ''` defaults are the identity on the string form fields. -/
def buildConditionSearchParams (s : Sys) (form : ConditionForm)
    (gpssApiKey : String) : ConditionParams :=
  { user_code := gpssApiKey
    max_results := 1000
    session_id := s.smSessionId
    applicant := form.applicant
    inventor := form.inventor
    patent_number := form.patentNumber
    application_number := form.applicationNumber
    ipc_class := form.ipcClass
    title_keyword := form.titleKeyword
    abstract_keyword := form.abstractKeyword
    claims_keyword := form.claimsKeyword
    application_date_from := form.applicationDateFrom
    application_date_to := form.applicationDateTo
    publication_date_from := form.publicationDateFrom
    publication_date_to := form.publicationDateTo }

/-- `SearchManager.hasValidConditions` (search.js:549): some field other
than `user_code`, `max_results`, `session_id` is a nonempty string. -/
def hasValidConditions (p : ConditionParams) : Bool :=
  p.applicant != "" || p.inventor != "" || p.patent_number != ""
    || p.application_number != "" || p.ipc_class != ""
    || p.title_keyword != "" || p.abstract_keyword != ""
    || p.claims_keyword != "" || p.application_date_from != ""
    || p.application_date_to != "" || p.publication_date_from != ""
    || p.publication_date_to != ""

/-- What `SearchManager.conditionSearch` resolves with on success. -/
structure ConditionOutcome where
  patents : List Patent
  total : Nat
  message : String

/-- `SearchManager.conditionSearch` (search.js:512): validate that at
least one condition field is set, materialize a session id if absent,
call the condition endpoint, and on success store the results. -/
def smConditionSearch (s : Sys) (params : ConditionParams) (freshId : String)
    (net : Except String RespData) :
    Sys × Except String ConditionOutcome × List String :=
  if ¬ hasValidConditions params then
    (s, .error "請至少輸入一個搜索條件", [])
  else
    let s := if s.smSessionId = "" then { s with smSessionId := freshId } else s
    match net with
    | .error e => (s, .error e, [conditionSearchEndpoint])
    | .ok resp =>
        if jsTruthyBool resp.success then
          ({ s with smConditionResults := some (resp.results.getD []) },
           .ok { patents := resp.results.getD []
                 total := resp.total_found.getD 0
                 message := jsOrStr resp.message "條件搜索完成" },
           [conditionSearchEndpoint])
        else
          (s, .error (jsOrStr resp.detail (jsOrStr resp.message "條件搜索失敗")),
           [conditionSearchEndpoint])

/-! ## Export (search.js:673) -/

/-- One row of the spreadsheet handed to the export collaborator. -/
structure ExportRow where
  no : Nat
  title : String
  link : String
  pubNum : String
  applicants : String
  country : String
  abstract : String
  claims : String
  features : String
  effects : String

/-- The invocation of the external XLSX collaborator: the row list and the
file name (`today` stands for `Utils.formatDate(new Date(),'YYYY-MM-DD')`). -/
structure ExportCall where
  rows : List ExportRow
  fileName : String

def gpssLinkOf (v : JSVal) : String :=
  "https://tiponet.tipo.gov.tw/gpss4/gpsskmc/gpssbkm?!!FRURL" ++ jsToString v

/-- One export row (search.js:680-695), with the Chinese-key/English-key
fallback chains of the source. -/
def exportRow (index : Nat) (patent : Patent) : ExportRow :=
  let pubNum := jsOr (patent "公開公告號") (patent "publication_number")
  { no := index + 1
    title := safeStringValue (jsOr (patent "專利名稱") (patent "title"))
    link := safeStringValue (jsOr (patent "專利連結") (jsOr (patent "patent_link")
      (if jsTruthy pubNum then .str (gpssLinkOf pubNum) else .str "")))
    pubNum := safeStringValue pubNum
    applicants := safeStringValue (jsOr (patent "申請人") (patent "applicants"))
    country := safeStringValue (jsOr (patent "國家") (patent "country"))
    abstract := safeTruncateText (jsOr (patent "摘要") (patent "abstract")) 500
    claims := safeTruncateText (jsOr (patent "專利範圍") (patent "claims")) 500
    features := formatArrayField (jsOr (patent "技術特徵")
      (jsOr (patent "technical_features") (.arr [])))
    effects := formatArrayField (jsOr (patent "技術功效")
      (jsOr (patent "technical_effects") (.arr []))) }

/-- `this.searchResults[type]` of the SearchManager: only `"tech"` and
`"condition"` slots exist; any other key reads `undefined`. -/
def smSearchResults (s : Sys) (ty : String) : Option (List Patent) :=
  if ty = "tech" then s.smTechResults
  else if ty = "condition" then s.smConditionResults
  else none

/-- `SearchManager.exportToExcel` (search.js:673): fail with
`"沒有可匯出的資料"` when the stored result set is absent or empty
(`!results || !results.length`); otherwise build the rows and hand them to
the XLSX collaborator (the returned `ExportCall`). -/
def exportToExcelSM (s : Sys) (ty : String) (today : String) :
    Except String ExportCall :=
  match smSearchResults s ty with
  | none => .error "沒有可匯出的資料"
  | some results =>
      if results.length = 0 then .error "沒有可匯出的資料"
      else
        .ok { rows := (enumIdx 0 results).map (fun ip => exportRow ip.1 ip.2)
              fileName := "專利檢索結果_" ++ ty ++ "_" ++ today ++ ".xlsx" }

/-! ## PatentSearchApp workflows (app.js) -/

/-- The busy message both `executeSearch` and `startConditionSearch` show
when `this.isSearching` is already set. -/
def busySearchMessage : String := "正在進行搜尋，請稍候..."

/-- `PatentSearchApp.validateApiKey` (app.js:995): the error shown when
the GPSS key input is empty or unverified; `none` when valid. -/
def validateApiKey (s : Sys) (gpssApiKey : String) : Option String :=
  if gpssApiKey = "" then some "請先輸入GPSS API驗證碼並完成驗證"
  else if ¬ s.apiKeyVerified then some "請先完成GPSS API驗證"
  else none

/-- `PatentSearchApp.executeSearch` (app.js:808): single-flight guard on
`this.isSearching`, then (in `try`) set the guard and the tech progress
bar, run `searchManager.manualSearch`, on success snap progress to 100,
store the results in the app's tech slot and enable chat; the `finally`
block always clears the guard and resets the progress bar. -/
def executeSearch (s : Sys) (net : Except String RespData) : StepResult :=
  if s.isSearching then
    { state := s, calls := [], errorShown := some busySearchMessage }
  else
    let s1 := { s with isSearching := true
                       progressTech := { pct := 30, anim := true } }
    match manualSearchSM s1 net with
    | (s2, .ok resp, calls) =>
        let s3 := { s2 with progressTech := ⟨100, false⟩
                            appTechResults := some (jsOrResults resp)
                            chatEnabled := true }
        { state := { s3 with isSearching := false
                             progressTech := progressReset }
          calls := calls, errorShown := none }
    | (s2, .error e, calls) =>
        { state := { s2 with isSearching := false
                             progressTech := progressReset }
          calls := calls, errorShown := some ("搜索失敗: " ++ e) }

/-- `PatentSearchApp.startConditionSearch` (app.js:880): API-key
validation, single-flight guard on the same `this.isSearching` flag as
`executeSearch`, session materialization, then the condition search; the
`finally` block always clears the guard and resets the condition
progress bar. -/
def startConditionSearch (s : Sys) (gpssApiKey : String)
    (form : ConditionForm) (freshId : String)
    (net : Except String RespData) : StepResult :=
  match validateApiKey s gpssApiKey with
  | some err => { state := s, calls := [], errorShown := some err }
  | none =>
      if s.isSearching then
        { state := s, calls := [], errorShown := some busySearchMessage }
      else
        let s1 := if s.appSessionId = "" then
            { s with appSessionId := freshId, smSessionId := freshId
                     chatSessionId := freshId }
          else s
        let params := buildConditionSearchParams s1 form gpssApiKey
        let s2 := { s1 with isSearching := true
                            progressCondition := { pct := 30, anim := true } }
        match smConditionSearch s2 params freshId net with
        | (s3, .ok outcome, calls) =>
            let s4 := { s3 with progressCondition := ⟨100, false⟩
                                appConditionResults := some outcome.patents
                                chatEnabled := true }
            { state := { s4 with isSearching := false
                                 progressCondition := progressReset }
              calls := calls, errorShown := none }
        | (s3, .error e, calls) =>
            { state := { s3 with isSearching := false
                                 progressCondition := progressReset }
              calls := calls, errorShown := some ("條件查詢失敗: " ++ e) }

/-- `ExcelManager.analyzeExcel` (excel.js:235): requires a selected file,
guards on its own `this.isProcessing` flag (independent of the search
guard), uploads the file, and on success stores the analysis results and
mirrors them into the app's excel slot; the `finally` block always clears
the flag and resets the excel progress bar. -/
def analyzeExcel (s : Sys) (net : Except String RespData) : StepResult :=
  if s.excelSelectedFile = none then
    { state := s, calls := [], errorShown := some "請先選擇Excel檔案" }
  else if s.excelProcessing then
    { state := s, calls := [], errorShown := some "系統正在處理其他請求，請稍候..." }
  else
    let s1 := { s with excelProcessing := true
                       progressExcel := { pct := 10, anim := true } }
    match net with
    | .ok resp =>
        if jsTruthyBool resp.success then
          let s2 := { s1 with progressExcel := ⟨100, false⟩
                              excelAnalysisResults := some resp
                              appExcelResults := resp.results
                              chatEnabled := true }
          { state := { s2 with excelProcessing := false
                               progressExcel := progressReset }
            calls := [excelUploadEndpoint], errorShown := none }
        else
          { state := { s1 with excelProcessing := false
                               progressExcel := progressReset }
            calls := [excelUploadEndpoint]
            errorShown := some ("Excel分析失敗: " ++ jsOrStr resp.message "分析失敗") }
    | .error e =>
        { state := { s1 with excelProcessing := false
                             progressExcel := progressReset }
          calls := [excelUploadEndpoint]
          errorShown := some ("Excel分析失敗: " ++ e) }

/-! ## ChatManager (chat.js) -/

/-- One locally retained transcript turn (chat.js:293). -/
structure ChatTurn where
  role : String
  content : String
  memoryMode : Bool
  timestamp : String
deriving DecidableEq

/-- The mutable state of the `chatManager` singleton. -/
structure ChatState where
  chatEnabled : Bool
  memoryEnabled : Bool
  chatHistory : List ChatTurn
  sessionId : String
  memoryStatus : Option MemoryStatus

/-- `ChatManager.addChatMessage` (chat.js:262): render the message and
push one turn onto the local transcript (append-only). -/
def addChatMessage (c : ChatState) (role content : String)
    (memoryMode : Bool) (now : String) : ChatState :=
  { c with chatHistory := c.chatHistory ++ [⟨role, content, memoryMode, now⟩] }

/-- `ChatManager.updateMemoryStatus` (chat.js:363): fetch the memory
status snapshot; store it when the call succeeds, swallow errors. -/
def updateMemoryStatus (c : ChatState) (net : Except String RespData) :
    ChatState × List String :=
  if c.sessionId = "" then (c, [])
  else
    match net with
    | .ok resp =>
        if jsTruthyBool resp.success then
          ({ c with memoryStatus := resp.memory_status }, [memoryStatusEndpoint])
        else (c, [memoryStatusEndpoint])
    | .error _ => (c, [memoryStatusEndpoint])

/-- `ChatManager.clearChatMemory` (chat.js:439): require a session id and
user confirmation, POST the backend clear-memory request, and on success
append a system turn and refresh the memory status.  The local transcript
(`this.chatHistory`) is never truncated. -/
def clearChatMemory (c : ChatState) (confirmed : Bool) (now : String)
    (net statusNet : Except String RespData) :
    ChatState × List String × Option String :=
  if c.sessionId = "" then (c, [], some "沒有當前會話ID")
  else if ¬ confirmed then (c, [], none)
  else
    match net with
    | .ok resp =>
        if jsTruthyBool resp.success then
          let c1 := addChatMessage c "system"
            "對話記憶已清除。AI將不再記住之前的對話內容。" false now
          let r := updateMemoryStatus c1 statusNet
          (r.1, clearMemoryEndpoint :: r.2, none)
        else (c, [clearMemoryEndpoint], some "清除記憶失敗")
    | .error _ => (c, [clearMemoryEndpoint], some "清除記憶失敗")

/-! ## Sample states used by the witnesses -/

/-- A state with a tech/condition search currently in flight. -/
def sampleBusyState : Sys :=
  { isSearching := true
    appTechResults := none
    appConditionResults := none
    appExcelResults := none
    appSessionId := "session_1"
    apiKeyVerified := true
    progressTech := ⟨30, true⟩
    progressCondition := progressReset
    progressExcel := progressReset
    chatEnabled := false
    chatSessionId := "session_1"
    smGeneratedKeywords := []
    smSessionId := "session_1"
    smTechResults := none
    smConditionResults := none
    conditionRows := [emptyConditionRow]
    excelProcessing := false
    excelSelectedFile := none
    excelAnalysisResults := none }

/-- A quiescent state (no search in flight, progress bars reset). -/
def sampleIdleState : Sys :=
  { sampleBusyState with isSearching := false, progressTech := progressReset }

/-- A quiescent state with one condition row holding the keyword
`"wafer"`. -/
def sampleReadyState : Sys :=
  { sampleIdleState with conditionRows := [⟨["wafer"], "AB", "AND"⟩] }

/-- A sample condition-search form with one nonempty field. -/
def sampleConditionForm : ConditionForm :=
  { applicant := "KYEC"
    inventor := ""
    patentNumber := ""
    applicationNumber := ""
    ipcClass := ""
    titleKeyword := ""
    abstractKeyword := ""
    claimsKeyword := ""
    applicationDateFrom := ""
    applicationDateTo := ""
    publicationDateFrom := ""
    publicationDateTo := "" }

/-! ## C6: error-message normalization of the request wrapper -/

/-- A non-ok response whose JSON body parses but carries neither `detail`
nor `message`. -/
def sampleBareErrorResponse : HttpResponse :=
  { ok := false, status := 500, statusText := "Internal Server Error"
    body := some {} }

/-- A non-ok response carrying a structured `detail` field. -/
def sampleDetailErrorResponse : HttpResponse :=
  { ok := false, status := 400, statusText := "Bad Request"
    body := some { detail := some "quota exceeded" } }

/-- The confirmed-search response of the claim's end-to-end scenario:
`success` with `results=[]` (here delivered in `search_results`). -/
def sampleEmptyResultsResponse : RespData :=
  { success := some true, search_results := some [] }

/-- The keyword-group example of the claim. -/
def demoKeywordGroups : List KeywordGroup :=
  [⟨"wafer", ["wafer chip"]⟩, ⟨"probe", []⟩]

example : readback "wafer" = "wafer" := by decide

example : readback " a" = "a" := by decide

/-! ### Basic lemmas about the drop-zone dedup fold -/

lemma map_readback_of_clean (l : List String) (h : ∀ x ∈ l, Clean x) :
    l.map readback = l := by
  induction l with
  | nil => rfl
  | cons a as ih =>
      have ha : readback a = a := h a (List.mem_cons_self a as)
      simp only [List.map_cons, ha, List.cons.injEq, true_and]
      exact ih (fun x hx => h x (List.mem_cons_of_mem a hx))

lemma contains_eq_mem_of_clean (zone : List String) (k : String)
    (hz : ∀ x ∈ zone, Clean x) :
    ((zone.map readback).contains k = true) ↔ k ∈ zone := by
  rw [map_readback_of_clean zone hz]
  exact ⟨fun h => List.mem_of_elem_eq_true h, fun h => List.elem_eq_true_of_mem h⟩

lemma addKeyword_of_mem (zone : List String) (k : String)
    (hz : ∀ x ∈ zone, Clean x) (hk : k ∈ zone) :
    addKeywordToDropZone zone k = zone := by
  unfold addKeywordToDropZone
  rw [if_pos ((contains_eq_mem_of_clean zone k hz).mpr hk)]

lemma addKeyword_of_not_mem (zone : List String) (k : String)
    (hz : ∀ x ∈ zone, Clean x) (hk : k ∉ zone) :
    addKeywordToDropZone zone k = zone ++ [k] := by
  unfold addKeywordToDropZone
  rw [if_neg (fun hc => hk ((contains_eq_mem_of_clean zone k hz).mp hc))]

lemma mem_addKeyword (zone : List String) (k x : String)
    (hz : ∀ y ∈ zone, Clean y) :
    x ∈ addKeywordToDropZone zone k ↔ x ∈ zone ∨ x = k := by
  by_cases hk : k ∈ zone
  · rw [addKeyword_of_mem zone k hz hk]
    constructor
    · exact Or.inl
    · rintro (h | rfl)
      · exact h
      · exact hk
  · rw [addKeyword_of_not_mem zone k hz hk]
    simp

lemma clean_addKeyword (zone : List String) (k : String)
    (hz : ∀ y ∈ zone, Clean y) (hk : Clean k) :
    ∀ x ∈ addKeywordToDropZone zone k, Clean x := by
  intro x hx
  rcases (mem_addKeyword zone k x hz).mp hx with h | rfl
  · exact hz x h
  · exact hk

lemma nodup_addKeyword (zone : List String) (k : String)
    (hz : ∀ y ∈ zone, Clean y) (hd : zone.Nodup) :
    (addKeywordToDropZone zone k).Nodup := by
  by_cases hk : k ∈ zone
  · rw [addKeyword_of_mem zone k hz hk]; exact hd
  · rw [addKeyword_of_not_mem zone k hz hk]
    simp [List.nodup_append, hd, hk]

lemma clean_foldl_addKeyword (terms zone : List String)
    (hz : ∀ y ∈ zone, Clean y) (ht : ∀ t ∈ terms, Clean t) :
    ∀ x ∈ terms.foldl addKeywordToDropZone zone, Clean x := by
  induction terms generalizing zone with
  | nil => exact hz
  | cons t ts ih =>
      simp only [List.foldl_cons]
      exact ih (addKeywordToDropZone zone t)
        (clean_addKeyword zone t hz (ht t (List.mem_cons_self t ts)))
        (fun u hu => ht u (List.mem_cons_of_mem t hu))

lemma mem_foldl_addKeyword (terms zone : List String) (x : String)
    (hz : ∀ y ∈ zone, Clean y) (ht : ∀ t ∈ terms, Clean t) :
    x ∈ terms.foldl addKeywordToDropZone zone ↔ x ∈ zone ∨ x ∈ terms := by
  induction terms generalizing zone with
  | nil => simp
  | cons t ts ih =>
      simp only [List.foldl_cons]
      rw [ih (addKeywordToDropZone zone t)
        (clean_addKeyword zone t hz (ht t (List.mem_cons_self t ts)))
        (fun u hu => ht u (List.mem_cons_of_mem t hu))]
      rw [mem_addKeyword zone t x hz]
      constructor
      · rintro ((h | rfl) | h)
        · exact Or.inl h
        · exact Or.inr (List.mem_cons_self x ts)
        · exact Or.inr (List.mem_cons_of_mem t h)
      · rintro (h | h)
        · exact Or.inl (Or.inl h)
        · rcases List.mem_cons.mp h with rfl | h
          · exact Or.inl (Or.inr rfl)
          · exact Or.inr h

lemma nodup_foldl_addKeyword (terms zone : List String)
    (hz : ∀ y ∈ zone, Clean y) (ht : ∀ t ∈ terms, Clean t)
    (hd : zone.Nodup) :
    (terms.foldl addKeywordToDropZone zone).Nodup := by
  induction terms generalizing zone with
  | nil => exact hd
  | cons t ts ih =>
      simp only [List.foldl_cons]
      exact ih (addKeywordToDropZone zone t)
        (clean_addKeyword zone t hz (ht t (List.mem_cons_self t ts)))
        (fun u hu => ht u (List.mem_cons_of_mem t hu))
        (nodup_addKeyword zone t hz hd)

/-! ### Lemmas about `updateAt` / `assign` -/

lemma length_updateAt (l : List α) (i : Nat) (f : α → α) :
    (updateAt l i f).length = l.length := by
  induction l generalizing i with
  | nil => rfl
  | cons a as ih =>
      cases i with
      | zero => rfl
      | succ n => simp [updateAt, ih]

lemma getD_updateAt_self (l : List α) (i : Nat) (f : α → α) (d : α)
    (hi : i < l.length) :
    (updateAt l i f).getD i d = f (l.getD i d) := by
  induction l generalizing i with
  | nil => simp at hi
  | cons a as ih =>
      cases i with
      | zero => rfl
      | succ n =>
          simp only [updateAt, List.getD_cons_succ]
          exact ih n (by simpa using hi)

lemma getD_updateAt_ne (l : List α) (i j : Nat) (f : α → α) (d : α)
    (hij : i ≠ j) :
    (updateAt l i f).getD j d = l.getD j d := by
  induction l generalizing i j with
  | nil => rfl
  | cons a as ih =>
      cases i with
      | zero =>
          cases j with
          | zero => exact absurd rfl hij
          | succ m => rfl
      | succ n =>
          cases j with
          | zero => rfl
          | succ m =>
              simp only [updateAt, List.getD_cons_succ]
              exact ih n m (fun h => hij (by rw [h]))

lemma updateAt_eq_self (l : List α) (i : Nat) (f : α → α) (d : α)
    (h : f (l.getD i d) = l.getD i d) :
    updateAt l i f = l := by
  induction l generalizing i with
  | nil => rfl
  | cons a as ih =>
      cases i with
      | zero => simpa [updateAt] using h
      | succ n =>
          simp only [updateAt, List.cons.injEq, true_and]
          exact ih n (by simpa using h)

lemma length_assign (rows : List ConditionRow) (i : Nat) (k : String) :
    (assign rows i k).length = rows.length := length_updateAt ..

lemma opsFor_cons_eq (i : Nat) (b : String) (ps : List (Nat × String)) :
    opsFor i ((i, b) :: ps) = b :: opsFor i ps := by
  simp [opsFor]

lemma opsFor_cons_ne (i a : Nat) (b : String) (ps : List (Nat × String))
    (h : a ≠ i) :
    opsFor i ((a, b) :: ps) = opsFor i ps := by
  simp [opsFor, h]

lemma applyAssigns_cons (rows : List ConditionRow) (p : Nat × String)
    (ps : List (Nat × String)) :
    applyAssigns rows (p :: ps) = applyAssigns (assign rows p.1 p.2) ps := rfl

lemma assign_getD_self (rows : List ConditionRow) (i : Nat) (k : String)
    (hi : i < rows.length) :
    (assign rows i k).getD i emptyConditionRow
      = { rows.getD i emptyConditionRow with
          dropped := addKeywordToDropZone
            ((rows.getD i emptyConditionRow).dropped) k } :=
  getD_updateAt_self rows i _ emptyConditionRow hi

lemma assign_getD_ne (rows : List ConditionRow) (a i : Nat) (k : String)
    (hai : a ≠ i) :
    (assign rows a k).getD i emptyConditionRow
      = rows.getD i emptyConditionRow :=
  getD_updateAt_ne rows a i _ emptyConditionRow hai

lemma applyAssigns_row (ops : List (Nat × String)) (rows : List ConditionRow)
    (i : Nat) (hi : i < rows.length) :
    ((applyAssigns rows ops).getD i emptyConditionRow).dropped
      = (opsFor i ops).foldl addKeywordToDropZone
          ((rows.getD i emptyConditionRow).dropped) := by
  induction ops generalizing rows with
  | nil => rfl
  | cons p ps ih =>
      obtain ⟨a, b⟩ := p
      rw [applyAssigns_cons]
      by_cases hai : a = i
      · subst hai
        rw [ih (assign rows a b) (by rw [length_assign]; exact hi)]
        rw [opsFor_cons_eq, List.foldl_cons, assign_getD_self rows a b hi]
      · rw [ih (assign rows a b) (by rw [length_assign]; exact hi)]
        rw [opsFor_cons_ne i a b ps hai, assign_getD_ne rows a i b hai]

lemma mem_opsFor (i : Nat) (k : String) (ops : List (Nat × String)) :
    k ∈ opsFor i ops ↔ (i, k) ∈ ops := by
  induction ops with
  | nil => simp [opsFor]
  | cons p ps ih =>
      obtain ⟨a, b⟩ := p
      by_cases hai : a = i
      · subst hai
        rw [opsFor_cons_eq]
        simp [ih, Prod.ext_iff]
      · rw [opsFor_cons_ne i a b ps hai]
        rw [ih]
        constructor
        · intro h
          exact List.mem_cons_of_mem _ h
        · intro h
          rcases List.mem_cons.mp h with heq | h
          · exact absurd (congrArg Prod.fst heq).symm hai
          · exact h

lemma clean_opsFor (i : Nat) (ops : List (Nat × String))
    (hc : ∀ p ∈ ops, Clean p.2) :
    ∀ t ∈ opsFor i ops, Clean t := by
  intro t ht
  rcases List.mem_filterMap.mp ht with ⟨p, hp, hpt⟩
  by_cases hpi : p.1 = i
  · rw [if_pos hpi] at hpt
    have : p.2 = t := Option.some.inj hpt
    exact this ▸ hc p hp
  · rw [if_neg hpi] at hpt
    exact absurd hpt (Option.noConfusion)

lemma getD_replicate (n i : Nat) (a : α) :
    (List.replicate n a).getD i a = a := by
  induction n generalizing i with
  | zero => rfl
  | succ m ih =>
      cases i with
      | zero => rfl
      | succ j => exact ih j

lemma count_eq_one_of_nodup_mem {l : List String} {a : String}
    (hd : l.Nodup) (ha : a ∈ l) : l.count a = 1 := by
  have hle := List.nodup_iff_count_le_one.mp hd a
  have hpos := List.count_pos_iff.mpr ha
  omega

/-- C4 (counterexample): assigning the keyword `" a"` (leading space) twice
to condition 0 leaves TWO entries in its keyword set, because the
duplicate check compares the raw dragged keyword against the trimmed
round-trip of the stored span texts; so the repeated assignment is not a
no-op for every keyword, refuting the claim as stated. -/
theorem C4_counterexample :
    (((applyAssigns (initRows 1) [(0, " a"), (0, " a")]).getD 0
        emptyConditionRow).dropped.count " a" ≠ 1)
    ∧ ((applyAssigns (initRows 1) [(0, " a"), (0, " a")]).getD 0
        emptyConditionRow).dropped = [" a", " a"] := by
  constructor
  · decide
  · decide

/-- C4 (amended): assigning a keyword to a condition is idempotent for every
keyword that the dropped-span round-trip leaves unchanged (trimmed, no
`'×'` character): for every sequence of assign commands over such keywords
in which `(i, k)` occurs (possibly repeatedly), condition `i`'s keyword
set afterwards contains exactly one entry for `k`, and one further
repeated assignment of `k` to `i` is a no-op. -/
theorem C4_assign_idempotent_clean (n : Nat) (ops : List (Nat × String))
    (i : Nat) (k : String) (hc : ∀ p ∈ ops, Clean p.2) (hi : i < n)
    (hk : (i, k) ∈ ops) :
    (((applyAssigns (initRows n) ops).getD i emptyConditionRow).dropped.count k
      = 1)
    ∧ assign (applyAssigns (initRows n) ops) i k
        = applyAssigns (initRows n) ops := by
  have hlen : i < (initRows n).length := by
    simpa [initRows] using hi
  have hrow0 : (initRows n).getD i emptyConditionRow = emptyConditionRow :=
    getD_replicate n i emptyConditionRow
  have hdropped :
      ((applyAssigns (initRows n) ops).getD i emptyConditionRow).dropped
        = (opsFor i ops).foldl addKeywordToDropZone [] := by
    rw [applyAssigns_row ops (initRows n) i hlen, hrow0]
    rfl
  have hzclean : ∀ y ∈ ([] : List String), Clean y := by
    intro y hy
    exact absurd hy (List.not_mem_nil y)
  have htclean : ∀ t ∈ opsFor i ops, Clean t := clean_opsFor i ops hc
  have hmem : k ∈ (opsFor i ops).foldl addKeywordToDropZone [] := by
    rw [mem_foldl_addKeyword _ _ k hzclean htclean]
    exact Or.inr ((mem_opsFor i k ops).mpr hk)
  have hnodup : ((opsFor i ops).foldl addKeywordToDropZone []).Nodup :=
    nodup_foldl_addKeyword _ _ hzclean htclean List.nodup_nil
  constructor
  · rw [hdropped]
    exact count_eq_one_of_nodup_mem hnodup hmem
  · apply updateAt_eq_self _ i _ emptyConditionRow
    have hclean : ∀ y ∈ ((applyAssigns (initRows n) ops).getD i
        emptyConditionRow).dropped, Clean y := by
      rw [hdropped]
      exact clean_foldl_addKeyword _ _ hzclean htclean
    have hkmem : k ∈ ((applyAssigns (initRows n) ops).getD i
        emptyConditionRow).dropped := by
      rw [hdropped]; exact hmem
    show ({ (applyAssigns (initRows n) ops).getD i emptyConditionRow with
        dropped := addKeywordToDropZone _ k } : ConditionRow) = _
    rw [addKeyword_of_mem _ k hclean hkmem]

/-! ### Lemmas about `enumIdx` and the autoGenerate fold -/

lemma length_enumIdx (l : List α) (s : Nat) : (enumIdx s l).length = l.length := by
  induction l generalizing s with
  | nil => rfl
  | cons x xs ih => simp [enumIdx, ih]

lemma getD_enumIdx_map (f : Nat × α → β) (l : List α) (s j : Nat) (a : α)
    (b : β) (hj : j < l.length) :
    ((enumIdx s l).map f).getD j b = f (s + j, l.getD j a) := by
  induction l generalizing s j with
  | nil => simp at hj
  | cons x xs ih =>
      cases j with
      | zero => simp [enumIdx]
      | succ m =>
          have hm : m < xs.length := by simpa using hj
          simp only [enumIdx, List.map_cons, List.getD_cons_succ]
          rw [ih (s + 1) m hm]
          have : s + 1 + m = s + (m + 1) := by omega
          rw [this]

lemma mem_enumIdx (a : α) (s : Nat) (l : List α) (p : Nat × α)
    (hp : p ∈ enumIdx s l) :
    ∃ j, j < l.length ∧ p.1 = s + j ∧ p.2 = l.getD j a := by
  induction l generalizing s with
  | nil => simp [enumIdx] at hp
  | cons x xs ih =>
      simp only [enumIdx, List.mem_cons] at hp
      rcases hp with rfl | hp
      · exact ⟨0, by simp, by simp, by simp⟩
      · rcases ih (s + 1) hp with ⟨j, hj, h1, h2⟩
        refine ⟨j + 1, by simpa using hj, ?_, by simpa using h2⟩
        rw [h1]; omega

lemma autoGenStep_append (n s : Nat) (g : KeywordGroup)
    (acc : List ConditionRow) (hs : s ≠ 0) (ht : groupTerms g ≠ []) :
    autoGenStep n acc (s, g)
      = acc ++ [fillConditionRow n s (groupTerms g) emptyConditionRow] := by
  unfold autoGenStep
  rw [if_neg (fun h => ht (List.length_eq_zero.mp h)), if_neg hs]

lemma autoGen_tail (n : Nat) (gs : List KeywordGroup) (s : Nat) (hs : 1 ≤ s)
    (acc : List ConditionRow) (ht : ∀ g ∈ gs, groupTerms g ≠ []) :
    (enumIdx s gs).foldl (autoGenStep n) acc
      = acc ++ (enumIdx s gs).map
          (fun ig => fillConditionRow n ig.1 (groupTerms ig.2)
            emptyConditionRow) := by
  induction gs generalizing s acc with
  | nil => simp [enumIdx]
  | cons g rest ih =>
      simp only [enumIdx, List.foldl_cons, List.map_cons]
      rw [autoGenStep_append n s g acc (by omega)
        (ht g (List.mem_cons_self g rest))]
      rw [ih (s + 1) (by omega) _
        (fun x hx => ht x (List.mem_cons_of_mem g hx))]
      rw [List.append_assoc]
      rfl

lemma autoGen_rows (gs : List KeywordGroup) (hne : gs ≠ [])
    (ht : ∀ g ∈ gs, groupTerms g ≠ []) :
    (autoGenerateConditions gs).rows
      = (enumIdx 0 gs).map
          (fun ig => fillConditionRow gs.length ig.1 (groupTerms ig.2)
            emptyConditionRow) := by
  cases gs with
  | nil => exact absurd rfl hne
  | cons g0 rest =>
      unfold autoGenerateConditions clearAllConditions
      rw [if_neg (by simp)]
      simp only [enumIdx, List.foldl_cons, List.map_cons]
      have hstep : autoGenStep (g0 :: rest).length [emptyConditionRow] (0, g0)
          = [fillConditionRow (g0 :: rest).length 0 (groupTerms g0)
              emptyConditionRow] := by
        unfold autoGenStep
        rw [if_neg (fun h => (ht g0 (List.mem_cons_self g0 rest))
          (List.length_eq_zero.mp h))]
        rw [if_pos rfl]
      rw [hstep]
      rw [autoGen_tail (g0 :: rest).length rest 1 (by omega) _
        (fun x hx => ht x (List.mem_cons_of_mem g0 hx))]
      rfl

lemma filter_nonempty_eq_self (l : List String) (h : ∀ x ∈ l, x ≠ "") :
    l.filter (fun kw => kw ≠ "") = l := by
  induction l with
  | nil => rfl
  | cons x xs ih =>
      have hx : x ≠ "" := h x (List.mem_cons_self x xs)
      simp only [List.filter_cons]
      rw [if_pos (by simpa using hx)]
      rw [ih (fun y hy => h y (List.mem_cons_of_mem x hy))]

lemma collect_tail (rows : List ConditionRow) (s : Nat)
    (acc : List SearchCondition)
    (h : ∀ r ∈ rows, r.dropped ≠ [] ∧ ∀ x ∈ r.dropped, Clean x ∧ x ≠ "") :
    (enumIdx s rows).foldl
        (fun acc ir =>
          let row := ir.2
          if row.dropped.length > 0 then
            let keywords := (row.dropped.map readback).filter
              (fun kw => kw ≠ "")
            if keywords.length > 0 then
              acc ++ [{ keywords := keywords, field := row.field
                        logic := row.logic, condition_index := ir.1 }]
            else acc
          else acc)
        acc
      = acc ++ (enumIdx s rows).map rowCondition := by
  induction rows generalizing s acc with
  | nil => simp [enumIdx]
  | cons r rest ih =>
      obtain ⟨hne, hgood⟩ := h r (List.mem_cons_self r rest)
      have hkw : (r.dropped.map readback).filter (fun kw => kw ≠ "")
          = r.dropped := by
        rw [map_readback_of_clean r.dropped (fun x hx => (hgood x hx).1)]
        exact filter_nonempty_eq_self r.dropped (fun x hx => (hgood x hx).2)
      simp only [enumIdx, List.foldl_cons, List.map_cons]
      have hlen : r.dropped.length > 0 := by
        cases hd : r.dropped with
        | nil => exact absurd hd hne
        | cons a as => simp [hd]
      rw [show (if r.dropped.length > 0 then
            (if ((r.dropped.map readback).filter
                (fun kw => kw ≠ "")).length > 0 then
              acc ++ [{ keywords := (r.dropped.map readback).filter
                          (fun kw => kw ≠ ""), field := r.field
                        logic := r.logic, condition_index := s }]
            else acc)
          else acc)
          = acc ++ [rowCondition (s, r)] by
        rw [if_pos hlen, hkw, if_pos hlen]
        rfl]
      rw [ih (s + 1) _ (fun x hx => h x (List.mem_cons_of_mem r hx))]
      rw [List.append_assoc]
      rfl

lemma collect_of_good (rows : List ConditionRow)
    (h : ∀ r ∈ rows, r.dropped ≠ [] ∧ ∀ x ∈ r.dropped, Clean x ∧ x ≠ "") :
    collectSearchConditions rows = (enumIdx 0 rows).map rowCondition := by
  unfold collectSearchConditions
  exact collect_tail rows 0 [] h

/-- C4 witness: the amended idempotence theorem applied at a concrete
sequence that assigns `"probe"` to condition 0 twice. -/
theorem C4_witness :
    ((∀ p ∈ [((0 : Nat), "probe"), (1, "wafer"), (0, "probe")], Clean p.2)
      ∧ 0 < 2 ∧ ((0 : Nat), "probe") ∈ [((0 : Nat), "probe"), (1, "wafer"), (0, "probe")])
    ∧ ((((applyAssigns (initRows 2)
          [(0, "probe"), (1, "wafer"), (0, "probe")]).getD 0
            emptyConditionRow).dropped.count "probe" = 1)
        ∧ assign (applyAssigns (initRows 2)
            [(0, "probe"), (1, "wafer"), (0, "probe")]) 0 "probe"
          = applyAssigns (initRows 2)
              [(0, "probe"), (1, "wafer"), (0, "probe")]) :=
  ⟨⟨by decide, by decide, by decide⟩,
    C4_assign_idempotent_clean 2 [(0, "probe"), (1, "wafer"), (0, "probe")]
      0 "probe" (by decide) (by decide) (by decide)⟩

/-! ## C1: busy rejection of a second tech search -/

/-- C1: while the orchestrator's in-flight guard is set, a second call to
start a tech search is rejected immediately with the busy error, issues no
network call, and leaves the entire state (guard flag and stored results
included) unchanged. -/
theorem C1_busy_rejection (s : Sys) (net : Except String RespData)
    (h : s.isSearching = true) :
    executeSearch s net
      = { state := s, calls := [], errorShown := some busySearchMessage } := by
  unfold executeSearch
  rw [if_pos h]

/-- C1 witness: the busy rejection at a concrete in-flight state. -/
theorem C1_witness :
    sampleBusyState.isSearching = true
    ∧ executeSearch sampleBusyState (.error "network down")
        = { state := sampleBusyState, calls := []
            errorShown := some busySearchMessage } :=
  ⟨rfl, C1_busy_rejection sampleBusyState (.error "network down") rfl⟩

/-! ## C7: short descriptions never reach the network -/

/-- C7: for every description that is empty or shorter than 50 characters,
keyword generation fails with the validation error before any network
request: the state is unchanged, the result is the validation error, and
the network trace is empty. -/
theorem C7_short_description_no_network (s : Sys)
    (description freshId : String) (net : Except String RespData)
    (h : description = "" ∨ description.length < 50) :
    smGenerateKeywords s description freshId net
      = (s, .error "技術描述太短，請提供更詳細的描述（至少50個字）", []) := by
  unfold smGenerateKeywords
  rw [if_pos h]

/-- C7 witness: the empty description. -/
theorem C7_witness :
    (("" : String) = "" ∨ ("" : String).length < 50)
    ∧ smGenerateKeywords sampleIdleState "" "session_2" (.ok {})
        = (sampleIdleState, .error "技術描述太短，請提供更詳細的描述（至少50個字）", []) :=
  ⟨Or.inl rfl,
    C7_short_description_no_network sampleIdleState "" "session_2" (.ok {})
      (Or.inl rfl)⟩

/-! ## C9: clearing backend memory never truncates the local transcript -/

lemma updateMemoryStatus_history (c : ChatState)
    (net : Except String RespData) :
    (updateMemoryStatus c net).1.chatHistory = c.chatHistory := by
  unfold updateMemoryStatus
  split
  · rfl
  · split
    · split <;> rfl
    · rfl

lemma updateMemoryStatus_calls (c : ChatState)
    (net : Except String RespData) :
    (updateMemoryStatus c net).2 = []
      ∨ (updateMemoryStatus c net).2 = [memoryStatusEndpoint] := by
  unfold updateMemoryStatus
  split
  · exact Or.inl rfl
  · split
    · split
      · exact Or.inr rfl
      · exact Or.inr rfl
    · exact Or.inr rfl

/-- C9: `clearChatMemory` only talks to the backend memory endpoints and
never removes a turn from the local transcript: on every path the new
transcript is the old transcript plus a (possibly empty) suffix. -/
theorem C9_clearMemory_preserves_transcript (c : ChatState)
    (confirmed : Bool) (now : String) (net statusNet : Except String RespData) :
    (∃ suffix, (clearChatMemory c confirmed now net statusNet).1.chatHistory
        = c.chatHistory ++ suffix)
    ∧ (∀ call ∈ (clearChatMemory c confirmed now net statusNet).2.1,
        call = clearMemoryEndpoint ∨ call = memoryStatusEndpoint) := by
  unfold clearChatMemory
  split
  · exact ⟨⟨[], by simp⟩, by intro call hc; simp at hc⟩
  · split
    · exact ⟨⟨[], by simp⟩, by intro call hc; simp at hc⟩
    · split
      · split
        · constructor
          · refine ⟨[⟨"system", "對話記憶已清除。AI將不再記住之前的對話內容。",
              false, now⟩], ?_⟩
            rw [updateMemoryStatus_history]
            rfl
          · intro call hc
            rcases List.mem_cons.mp hc with rfl | hc
            · exact Or.inl rfl
            · rcases updateMemoryStatus_calls
                (addChatMessage c "system"
                  "對話記憶已清除。AI將不再記住之前的對話內容。" false now)
                statusNet with h | h
              · rw [h] at hc; simp at hc
              · rw [h] at hc
                simp at hc
                exact Or.inr hc
        · exact ⟨⟨[], by simp⟩, by intro call hc; simp at hc; simp [hc]⟩
      · exact ⟨⟨[], by simp⟩, by intro call hc; simp at hc; simp [hc]⟩

/-! ## Helper lemmas about the search workflows -/

lemma manualSearchSM_calls (s : Sys) (net : Except String RespData)
    (h2 : ¬ (collectSearchConditions s.conditionRows).length = 0)
    (h3 : ¬ ((collectSearchConditions s.conditionRows).filter
        (fun c => c.keywords.length = 0)).length > 0)
    (h4 : ¬ ((jsSetDedup ((collectSearchConditions s.conditionRows).foldl
        (fun acc c => acc ++ c.keywords) [])).filter
        (fun kw => kw ≠ "" ∧ jsTrim kw ≠ "")).length = 0) :
    (manualSearchSM s net).2.2 = [confirmedSearchEndpoint] := by
  simp only [manualSearchSM]
  rw [if_neg h2, if_neg h3, if_neg h4]
  split
  · rfl
  · split <;> rfl

lemma manualSearchSM_success (s : Sys) (resp : RespData)
    (h2 : ¬ (collectSearchConditions s.conditionRows).length = 0)
    (h3 : ¬ ((collectSearchConditions s.conditionRows).filter
        (fun c => c.keywords.length = 0)).length > 0)
    (h4 : ¬ ((jsSetDedup ((collectSearchConditions s.conditionRows).foldl
        (fun acc c => acc ++ c.keywords) [])).filter
        (fun kw => kw ≠ "" ∧ jsTrim kw ≠ "")).length = 0)
    (h5 : jsTruthyBool resp.success = true) :
    manualSearchSM s (.ok resp)
      = ({ s with smTechResults := some (jsOrResults resp) },
         .ok resp, [confirmedSearchEndpoint]) := by
  simp only [manualSearchSM]
  rw [if_neg h2, if_neg h3, if_neg h4, if_pos h5]

lemma smConditionSearch_calls (s : Sys) (params : ConditionParams)
    (freshId : String) (net : Except String RespData)
    (hv : hasValidConditions params = true) :
    (smConditionSearch s params freshId net).2.2
      = [conditionSearchEndpoint] := by
  simp only [smConditionSearch]
  rw [if_neg (not_not_intro hv)]
  split
  · rfl
  · split <;> rfl

/-! ## C10: the two search modes share one guard; batch analysis has its
own -/

/-- C10: the tech search and the condition search are guarded by the one
shared `isSearching` flag: while it is set, either workflow is rejected
with the same busy error, no network call, and an unchanged state.  Batch
file analysis neither reads nor writes that flag: it leaves `isSearching`
untouched and, when its own `isProcessing` guard is clear and a file is
selected, issues its upload no matter the value of `isSearching`;
conversely the two search workflows proceed to their network calls (given
clear guard and passing validation) no matter the value of the excel
flag, on which they place no hypothesis. -/
theorem C10_shared_guard (s : Sys) (gpssApiKey : String)
    (form : ConditionForm) (freshId : String)
    (net1 net2 net3 : Except String RespData) :
    (s.isSearching = true →
      executeSearch s net1
        = { state := s, calls := [], errorShown := some busySearchMessage })
    ∧ (s.isSearching = true → gpssApiKey ≠ "" → s.apiKeyVerified = true →
        startConditionSearch s gpssApiKey form freshId net2
          = { state := s, calls := [], errorShown := some busySearchMessage })
    ∧ ((analyzeExcel s net3).state.isSearching = s.isSearching)
    ∧ (s.excelProcessing = false → ∀ f, s.excelSelectedFile = some f →
        (analyzeExcel s net3).calls = [excelUploadEndpoint])
    ∧ (s.isSearching = false →
        ¬ (collectSearchConditions s.conditionRows).length = 0 →
        ¬ ((collectSearchConditions s.conditionRows).filter
            (fun c => c.keywords.length = 0)).length > 0 →
        ¬ ((jsSetDedup ((collectSearchConditions s.conditionRows).foldl
            (fun acc c => acc ++ c.keywords) [])).filter
            (fun kw => kw ≠ "" ∧ jsTrim kw ≠ "")).length = 0 →
        (executeSearch s net1).calls = [confirmedSearchEndpoint])
    ∧ (s.isSearching = false → gpssApiKey ≠ "" → s.apiKeyVerified = true →
        hasValidConditions (buildConditionSearchParams s form gpssApiKey)
          = true →
        (startConditionSearch s gpssApiKey form freshId net2).calls
          = [conditionSearchEndpoint]) := by
  refine ⟨?_, ?_, ?_, ?_, ?_, ?_⟩
  · intro h
    unfold executeSearch
    rw [if_pos h]
  · intro h hk hv
    have hva : validateApiKey s gpssApiKey = none := by
      unfold validateApiKey
      rw [if_neg hk, if_neg (fun hc => hc hv)]
    simp only [startConditionSearch, hva]
    rw [if_pos h]
  · unfold analyzeExcel
    split
    · rfl
    · split
      · rfl
      · split
        · split <;> rfl
        · rfl
  · intro hp f hf
    unfold analyzeExcel
    rw [if_neg (by rw [hf]; exact fun hc => Option.noConfusion hc)]
    rw [if_neg (by rw [hp]; exact Bool.false_ne_true)]
    split
    · split <;> rfl
    · rfl
  · intro hns h2 h3 h4
    simp only [executeSearch]
    rw [if_neg (by rw [hns]; exact Bool.false_ne_true)]
    rcases hms : manualSearchSM
      { s with isSearching := true
               progressTech := { pct := 30, anim := true } } net1
      with ⟨s2, res, calls⟩
    have hc := manualSearchSM_calls
      { s with isSearching := true
               progressTech := { pct := 30, anim := true } } net1 h2 h3 h4
    rw [hms] at hc
    cases res with
    | ok r => exact hc
    | error e => exact hc
  · intro hns hk hv hvc
    have hva : validateApiKey s gpssApiKey = none := by
      unfold validateApiKey
      rw [if_neg hk, if_neg (fun hc => hc hv)]
    simp only [startConditionSearch, hva]
    rw [if_neg (by rw [hns]; exact Bool.false_ne_true)]
    split
    next s3 outcome calls2 heq =>
      have h0 := congrArg (fun t => t.2.2) heq
      dsimp only at h0
      have hc : calls2 = [conditionSearchEndpoint] := by
        rw [← h0]
        exact smConditionSearch_calls _ _ _ _ hvc
      exact hc
    next s3 e calls2 heq =>
      have h0 := congrArg (fun t => t.2.2) heq
      dsimp only at h0
      have hc : calls2 = [conditionSearchEndpoint] := by
        rw [← h0]
        exact smConditionSearch_calls _ _ _ _ hvc
      exact hc

/-- C10 witness: busy rejections of both search modes at one concrete
in-flight state; the excel upload proceeding while a search is in flight;
and both searches proceeding while the excel flag is set. -/
theorem C10_witness :
    (sampleBusyState.isSearching = true
      ∧ ("GPSS1234567890123456" : String) ≠ ""
      ∧ sampleBusyState.apiKeyVerified = true
      ∧ { sampleReadyState with excelProcessing := true }.isSearching = false)
    ∧ executeSearch sampleBusyState (.error "x")
        = { state := sampleBusyState, calls := []
            errorShown := some busySearchMessage }
    ∧ startConditionSearch sampleBusyState "GPSS1234567890123456"
        sampleConditionForm "session_9" (.error "x")
        = { state := sampleBusyState, calls := []
            errorShown := some busySearchMessage }
    ∧ (analyzeExcel { sampleBusyState with
        excelSelectedFile := some "patents.xlsx" } (.error "x")).calls
        = [excelUploadEndpoint]
    ∧ (executeSearch { sampleReadyState with excelProcessing := true }
        (.error "x")).calls = [confirmedSearchEndpoint]
    ∧ (startConditionSearch { sampleReadyState with excelProcessing := true }
        "GPSS1234567890123456" sampleConditionForm "session_9"
        (.error "x")).calls = [conditionSearchEndpoint] :=
  ⟨⟨rfl, by decide, rfl, rfl⟩,
    (C10_shared_guard sampleBusyState "GPSS1234567890123456"
      sampleConditionForm "session_9" (.error "x") (.error "x")
      (.error "x")).1 rfl,
    (C10_shared_guard sampleBusyState "GPSS1234567890123456"
      sampleConditionForm "session_9" (.error "x") (.error "x")
      (.error "x")).2.1 rfl (by decide) rfl,
    (C10_shared_guard { sampleBusyState with
        excelSelectedFile := some "patents.xlsx" } "GPSS1234567890123456"
      sampleConditionForm "session_9" (.error "x") (.error "x")
      (.error "x")).2.2.2.1 rfl "patents.xlsx" rfl,
    (C10_shared_guard { sampleReadyState with excelProcessing := true }
      "GPSS1234567890123456" sampleConditionForm "session_9" (.error "x")
      (.error "x") (.error "x")).2.2.2.2.1 rfl (by decide) (by decide)
      (by decide),
    (C10_shared_guard { sampleReadyState with excelProcessing := true }
      "GPSS1234567890123456" sampleConditionForm "session_9" (.error "x")
      (.error "x") (.error "x")).2.2.2.2.2 rfl (by decide) rfl (by decide)⟩

/-! ## C2: the retry wrapper -/

lemma retryLoop_attempts_le (outcome : Nat → Except String α)
    (remaining : Nat) : ∀ (i delay : Nat),
    (retryLoop outcome i delay remaining).attempts ≤ i + remaining + 1 := by
  induction remaining with
  | zero =>
      intro i delay
      unfold retryLoop
      cases h : outcome i <;> simp
  | succ r ih =>
      intro i delay
      unfold retryLoop
      cases h : outcome i with
      | ok v => simp
      | error e =>
          have := ih (i + 1) (delay * 2)
          simp only []
          omega

lemma retryLoop_all_fail (outcome : Nat → Except String α) (e : Nat → String)
    (remaining : Nat) : ∀ (i delay : Nat),
    (∀ j, i ≤ j → j ≤ i + remaining → outcome j = .error (e j)) →
    retryLoop outcome i delay remaining
      = ⟨i + remaining + 1,
         (List.range remaining).map (fun k => delay * 2 ^ k),
         .error (e (i + remaining))⟩ := by
  induction remaining with
  | zero =>
      intro i delay h
      unfold retryLoop
      rw [h i (Nat.le_refl i) (Nat.le_add_right i 0)]
      simp
  | succ r ih =>
      intro i delay h
      unfold retryLoop
      rw [h i (Nat.le_refl i) (Nat.le_add_right i (r + 1))]
      simp only []
      rw [ih (i + 1) (delay * 2)
        (fun j hj1 hj2 => h j (by omega) (by omega))]
      have ha : i + 1 + r + 1 = i + (r + 1) + 1 := by omega
      have he : i + 1 + r = i + (r + 1) := by omega
      rw [RetryTrace.mk.injEq]
      refine ⟨ha, ?_, by rw [he]⟩
      rw [List.range_succ_eq_map, List.map_cons, List.map_map]
      have hhead : delay * 2 ^ 0 = delay := by simp
      rw [hhead]
      have htail : ∀ k ∈ List.range r,
          ((fun k => delay * 2 ^ k) ∘ Nat.succ) k
            = (fun k => delay * 2 * 2 ^ k) k := by
        intro k _
        simp [Function.comp, Nat.pow_succ]
        ring
      rw [List.map_congr_left htail]

lemma retryLoop_first_success (outcome : Nat → Except String α) (v : α)
    (m : Nat) : ∀ (i delay remaining : Nat), m ≤ remaining →
    (∀ j, i ≤ j → j < i + m → ∃ msg, outcome j = .error msg) →
    outcome (i + m) = .ok v →
    (retryLoop outcome i delay remaining).attempts = i + m + 1
      ∧ (retryLoop outcome i delay remaining).result = .ok v := by
  induction m with
  | zero =>
      intro i delay remaining _ _ hok
      have hi : outcome i = .ok v := by simpa using hok
      cases remaining <;> (unfold retryLoop; rw [hi]; exact ⟨rfl, rfl⟩)
  | succ m ih =>
      intro i delay remaining hm hfail hok
      obtain ⟨msg, hmsg⟩ := hfail i (Nat.le_refl i) (by omega)
      obtain ⟨r, rfl⟩ : ∃ r, remaining = r + 1 :=
        ⟨remaining - 1, by omega⟩
      unfold retryLoop
      rw [hmsg]
      simp only []
      have := ih (i + 1) (delay * 2) r (by omega)
        (fun j hj1 hj2 => hfail j (by omega) (by omega))
        (by have : i + 1 + m = i + (m + 1) := by omega
            rw [this]; exact hok)
      exact ⟨by rw [this.1]; omega, this.2⟩

/-- C2: `requestWithRetry` performs at most `maxRetries + 1` attempts and
stops at the first success; when every attempt fails it performs exactly
`maxRetries + 1` attempts, waits `baseDelay` before the second attempt
doubling after each further failure (waits `baseDelay · 2^k`), and
propagates exactly the error of the last attempt, unchanged. -/
theorem C2_requestWithRetry (outcome : Nat → Except String α)
    (maxRetries baseDelay : Nat) :
    ((requestWithRetry outcome maxRetries baseDelay).attempts
        ≤ maxRetries + 1)
    ∧ (∀ (v : α) (m : Nat), m ≤ maxRetries →
        (∀ j, j < m → ∃ msg, outcome j = .error msg) →
        outcome m = .ok v →
        (requestWithRetry outcome maxRetries baseDelay).attempts = m + 1
          ∧ (requestWithRetry outcome maxRetries baseDelay).result = .ok v)
    ∧ (∀ e : Nat → String,
        (∀ j, j ≤ maxRetries → outcome j = .error (e j)) →
        requestWithRetry outcome maxRetries baseDelay
          = ⟨maxRetries + 1,
             (List.range maxRetries).map (fun k => baseDelay * 2 ^ k),
             .error (e maxRetries)⟩) := by
  refine ⟨?_, ?_, ?_⟩
  · have := retryLoop_attempts_le outcome maxRetries 0 baseDelay
    simpa [requestWithRetry] using this
  · intro v m hm hfail hok
    have := retryLoop_first_success outcome v m 0 baseDelay maxRetries hm
      (fun j hj1 hj2 => hfail j (by omega)) (by simpa using hok)
    simpa [requestWithRetry] using this
  · intro e h
    have := retryLoop_all_fail outcome e maxRetries 0 baseDelay
      (fun j hj1 hj2 => h j (by omega))
    simpa [requestWithRetry] using this

/-- C2 witness: against an always-failing endpoint with `maxRetries = 3`
and `baseDelay = 100`, exactly 4 attempts are made with waits of 100, 200
and 400 ms, and the final error is the last attempt's error unchanged. -/
theorem C2_witness :
    (∀ j, j ≤ 3 →
      (fun j => (.error ("E" ++ toString j) : Except String Nat)) j
        = .error ("E" ++ toString j))
    ∧ requestWithRetry
        (fun j => (.error ("E" ++ toString j) : Except String Nat)) 3 100
        = ⟨4, [100, 200, 400], .error "E3"⟩ :=
  ⟨fun j _ => rfl, by
    have h := (C2_requestWithRetry
      (fun j => (.error ("E" ++ toString j) : Except String Nat)) 3 100).2.2
      (fun j => "E" ++ toString j) (fun j _ => rfl)
    rw [h]
    decide⟩

/-! ## C5: the guard flag and progress indicator are reset on every exit
path -/

/-- C5: starting from a quiescent state (guard clear, progress reset), the
three workflows leave the guard clear and the progress indicator reset on
every exit path — success, failure (thrown or rejected), or validation
rejection — for every network outcome; no error leaves a guard set. -/
theorem C5_guard_and_progress_reset (s : Sys) (gpssApiKey : String)
    (form : ConditionForm) (freshId : String)
    (net1 net2 net3 : Except String RespData) :
    (s.isSearching = false →
      (executeSearch s net1).state.isSearching = false
        ∧ (executeSearch s net1).state.progressTech = progressReset)
    ∧ (s.isSearching = false → s.progressCondition = progressReset →
        (startConditionSearch s gpssApiKey form freshId net2).state.isSearching
            = false
          ∧ (startConditionSearch s gpssApiKey form freshId
              net2).state.progressCondition = progressReset)
    ∧ (s.excelProcessing = false → s.progressExcel = progressReset →
        (analyzeExcel s net3).state.excelProcessing = false
          ∧ (analyzeExcel s net3).state.progressExcel = progressReset) := by
  refine ⟨?_, ?_, ?_⟩
  · intro h
    simp only [executeSearch]
    rw [if_neg (by rw [h]; exact Bool.false_ne_true)]
    refine ⟨?_, ?_⟩ <;> (split <;> rfl)
  · intro h hpc
    simp only [startConditionSearch]
    split
    · exact ⟨h, hpc⟩
    · split
      · exact ⟨h, hpc⟩
      · split <;> exact ⟨rfl, rfl⟩
  · intro hp hpe
    simp only [analyzeExcel]
    split
    · exact ⟨hp, hpe⟩
    · split
      · exact ⟨hp, hpe⟩
      · split
        · split <;> exact ⟨rfl, rfl⟩
        · exact ⟨rfl, rfl⟩

/-- C5 witness: the reset guarantees at a concrete quiescent state under a
failing network. -/
theorem C5_witness :
    (sampleIdleState.isSearching = false
      ∧ sampleIdleState.progressCondition = progressReset
      ∧ sampleIdleState.excelProcessing = false
      ∧ sampleIdleState.progressExcel = progressReset)
    ∧ ((executeSearch sampleIdleState (.error "boom")).state.isSearching
          = false
        ∧ (executeSearch sampleIdleState
            (.error "boom")).state.progressTech = progressReset)
    ∧ ((startConditionSearch sampleIdleState "GPSS1234567890123456"
          sampleConditionForm "session_9" (.error "boom")).state.isSearching
            = false
        ∧ (startConditionSearch sampleIdleState "GPSS1234567890123456"
            sampleConditionForm "session_9"
            (.error "boom")).state.progressCondition = progressReset)
    ∧ ((analyzeExcel sampleIdleState (.error "boom")).state.excelProcessing
          = false
        ∧ (analyzeExcel sampleIdleState
            (.error "boom")).state.progressExcel = progressReset) :=
  ⟨⟨rfl, rfl, rfl, rfl⟩,
    (C5_guard_and_progress_reset sampleIdleState "GPSS1234567890123456"
      sampleConditionForm "session_9" (.error "boom") (.error "boom")
      (.error "boom")).1 rfl,
    (C5_guard_and_progress_reset sampleIdleState "GPSS1234567890123456"
      sampleConditionForm "session_9" (.error "boom") (.error "boom")
      (.error "boom")).2.1 rfl rfl,
    (C5_guard_and_progress_reset sampleIdleState "GPSS1234567890123456"
      sampleConditionForm "session_9" (.error "boom") (.error "boom")
      (.error "boom")).2.2 rfl rfl⟩

/-- C6 (counterexample): when the error body parses but has neither
`detail` nor `message`, the code's message is `"HTTP 500"` — built from
the numeric status only — while the claim's precedence
(`detail → message → status text → generic fallback`) names the HTTP
status text `"Internal Server Error"` at that tier. -/
theorem C6_counterexample :
    request sampleBareErrorResponse = .error "HTTP 500"
    ∧ specNormalizedMessage sampleBareErrorResponse = "Internal Server Error"
    ∧ ("HTTP 500" : String) ≠ "Internal Server Error" :=
  ⟨rfl, rfl, by decide⟩

lemma jsOrStr_truthy (o : Option String) (d : String)
    (h : jsTruthyStr o = true) : jsOrStr o d = o.getD "" := by
  cases o with
  | none => exact absurd h (by simp [jsTruthyStr])
  | some s =>
      have hs : s ≠ "" := by simpa [jsTruthyStr] using h
      simp [jsOrStr, hs]

lemma jsOrStr_falsy (o : Option String) (d : String)
    (h : jsTruthyStr o = false) : jsOrStr o d = d := by
  cases o with
  | none => rfl
  | some s =>
      have hs : s = "" := by simpa [jsTruthyStr] using h
      simp [jsOrStr, hs]

/-- C6 (amended): on a non-success response the call fails with exactly
one normalized message, chosen by the precedence: the body's `detail`
field when present and nonempty, else its `message` field when present
and nonempty, else the status-derived text `"HTTP <status>"` when the
body parsed, else `"HTTP <status>: <statusText>"` when the body was not
JSON; the generic fallback is unreachable. -/
theorem C6_error_precedence (r : HttpResponse) (hok : r.ok = false) :
    (∀ b, r.body = some b → jsTruthyStr b.detail = true →
      request r = .error (b.detail.getD ""))
    ∧ (∀ b, r.body = some b → jsTruthyStr b.detail = false →
        jsTruthyStr b.message = true →
        request r = .error (b.message.getD ""))
    ∧ (∀ b, r.body = some b → jsTruthyStr b.detail = false →
        jsTruthyStr b.message = false →
        request r = .error ("HTTP " ++ toString r.status))
    ∧ (r.body = none →
        request r = .error ("HTTP " ++ toString r.status ++ ": "
          ++ r.statusText)) := by
  have hreq : request r = .error (requestErrorDetail r) := by
    unfold request
    rw [if_neg (by rw [hok]; exact Bool.false_ne_true)]
  refine ⟨?_, ?_, ?_, ?_⟩
  · intro b hb hd
    rw [hreq]
    unfold requestErrorDetail
    rw [hb]
    show Except.error (jsOrStr b.detail
      (jsOrStr b.message ("HTTP " ++ toString r.status))) = _
    rw [jsOrStr_truthy b.detail _ hd]
  · intro b hb hd hm
    rw [hreq]
    unfold requestErrorDetail
    rw [hb]
    show Except.error (jsOrStr b.detail
      (jsOrStr b.message ("HTTP " ++ toString r.status))) = _
    rw [jsOrStr_falsy b.detail _ hd, jsOrStr_truthy b.message _ hm]
  · intro b hb hd hm
    rw [hreq]
    unfold requestErrorDetail
    rw [hb]
    show Except.error (jsOrStr b.detail
      (jsOrStr b.message ("HTTP " ++ toString r.status))) = _
    rw [jsOrStr_falsy b.detail _ hd, jsOrStr_falsy b.message _ hm]
  · intro hb
    rw [hreq]
    unfold requestErrorDetail
    rw [hb]

/-- C6 witness: the `detail` tier of the precedence at a concrete
response. -/
theorem C6_witness :
    (sampleDetailErrorResponse.ok = false
      ∧ sampleDetailErrorResponse.body
          = some { detail := some "quota exceeded" }
      ∧ jsTruthyStr (some "quota exceeded") = true)
    ∧ request sampleDetailErrorResponse = .error "quota exceeded" :=
  ⟨⟨rfl, rfl, by decide⟩,
    (C6_error_precedence sampleDetailErrorResponse rfl).1
      { detail := some "quota exceeded" } rfl (by decide)⟩

/-! ## C8: empty result sets are stored, and exports of empty or absent
result sets are refused -/

/-- C8: a successful confirmed search whose response carries an empty
result list stores the empty list as the tech result entry (in both the
app's and the SearchManager's store), and `exportToExcel` of any mode
whose stored result set is absent or empty fails with the
no-exportable-data error instead of invoking the export collaborator. -/
theorem C8_empty_results (s : Sys) (resp : RespData)
    (h1 : s.isSearching = false)
    (h2 : ¬ (collectSearchConditions s.conditionRows).length = 0)
    (h3 : ¬ ((collectSearchConditions s.conditionRows).filter
        (fun c => c.keywords.length = 0)).length > 0)
    (h4 : ¬ ((jsSetDedup ((collectSearchConditions s.conditionRows).foldl
        (fun acc c => acc ++ c.keywords) [])).filter
        (fun kw => kw ≠ "" ∧ jsTrim kw ≠ "")).length = 0)
    (h5 : jsTruthyBool resp.success = true)
    (h6 : jsOrResults resp = []) :
    ((executeSearch s (.ok resp)).state.appTechResults = some []
      ∧ (executeSearch s (.ok resp)).state.smTechResults = some [])
    ∧ (∀ t : Sys, ∀ ty today : String,
        smSearchResults t ty = none ∨ smSearchResults t ty = some [] →
        exportToExcelSM t ty today = .error "沒有可匯出的資料") := by
  constructor
  · simp only [executeSearch]
    rw [if_neg (by rw [h1]; exact Bool.false_ne_true)]
    rw [manualSearchSM_success
      { s with isSearching := true
               progressTech := { pct := 30, anim := true } } resp h2 h3 h4 h5]
    constructor
    · show some (jsOrResults resp) = some []
      rw [h6]
    · show some (jsOrResults resp) = some []
      rw [h6]
  · intro t ty today h
    unfold exportToExcelSM
    rcases h with hnone | hempty
    · rw [hnone]
    · rw [hempty]
      rfl

/-- C8 witness: the empty-results scenario at a concrete ready state, and
a refused export of a stored empty result set. -/
theorem C8_witness :
    (sampleReadyState.isSearching = false
      ∧ jsTruthyBool sampleEmptyResultsResponse.success = true
      ∧ jsOrResults sampleEmptyResultsResponse = []
      ∧ (smSearchResults { sampleIdleState with smTechResults := some [] }
            "tech" = none
          ∨ smSearchResults { sampleIdleState with smTechResults := some [] }
            "tech" = some []))
    ∧ ((executeSearch sampleReadyState
          (.ok sampleEmptyResultsResponse)).state.appTechResults = some []
        ∧ (executeSearch sampleReadyState
            (.ok sampleEmptyResultsResponse)).state.smTechResults = some [])
    ∧ exportToExcelSM { sampleIdleState with smTechResults := some [] }
        "tech" "2026-10-11" = .error "沒有可匯出的資料" :=
  ⟨⟨rfl, rfl, rfl, Or.inr rfl⟩,
    (C8_empty_results sampleReadyState sampleEmptyResultsResponse rfl
      (by decide) (by decide) (by decide) rfl rfl).1,
    (C8_empty_results sampleReadyState sampleEmptyResultsResponse rfl
      (by decide) (by decide) (by decide) rfl rfl).2
      { sampleIdleState with smTechResults := some [] } "tech" "2026-10-11"
      (Or.inr rfl)⟩

/-! ## C3: autoGenerate builds one ABSTRACT/AND condition row per keyword
group -/

lemma groupTerms_eq (g : KeywordGroup) (h : g.keyword ≠ "") :
    groupTerms g = g.keyword :: g.synonyms := by
  unfold groupTerms
  rw [if_pos h]
  rfl

lemma getD_mem (l : List α) (j : Nat) (d : α) (h : j < l.length) :
    l.getD j d ∈ l := by
  induction l generalizing j with
  | nil => simp at h
  | cons x xs ih =>
      cases j with
      | zero => exact List.mem_cons_self x xs
      | succ m => exact List.mem_cons_of_mem x (ih m (by simpa using h))

/-- C3: on a nonempty list of keyword groups (each with a nonempty,
round-trip-clean primary keyword and nonempty clean synonyms),
`autoGenerateConditions` reports no error and leaves exactly one condition
row per group, with field `"AB"` (abstract) on every row, logic `"AND"`
explicitly set on every row but the last, and the row's keyword set
exactly the group's primary keyword plus its synonyms; `collect`
afterwards returns one condition per group, each with field `"AB"` and a
nonempty keyword set.  On the empty group list it reports the failure
(error message, no throw) and leaves the single cleared row. -/
theorem C3_autoGenerate (gs : List KeywordGroup) (hne : gs ≠ [])
    (hc : ∀ g ∈ gs, Clean g.keyword ∧ g.keyword ≠ ""
        ∧ ∀ t ∈ g.synonyms, Clean t ∧ t ≠ "") :
    ((autoGenerateConditions gs).errorReported = none)
    ∧ ((autoGenerateConditions gs).rows.length = gs.length)
    ∧ (∀ j, j < gs.length →
        ((autoGenerateConditions gs).rows.getD j emptyConditionRow).field
            = "AB"
        ∧ (j < gs.length - 1 →
            ((autoGenerateConditions gs).rows.getD j
              emptyConditionRow).logic = "AND")
        ∧ ∀ t, t ∈ ((autoGenerateConditions gs).rows.getD j
              emptyConditionRow).dropped
            ↔ (t = (gs.getD j defaultGroup).keyword
                ∨ t ∈ (gs.getD j defaultGroup).synonyms))
    ∧ ((collectSearchConditions (autoGenerateConditions gs).rows).length
        = gs.length)
    ∧ (∀ j, j < gs.length →
        ((collectSearchConditions (autoGenerateConditions gs).rows).getD j
            defaultSearchCondition).keywords
          = ((autoGenerateConditions gs).rows.getD j
              emptyConditionRow).dropped
        ∧ ((collectSearchConditions (autoGenerateConditions gs).rows).getD j
            defaultSearchCondition).field = "AB"
        ∧ ((autoGenerateConditions gs).rows.getD j
            emptyConditionRow).dropped ≠ [])
    ∧ (autoGenerateConditions ([] : List KeywordGroup)
        = ⟨[emptyConditionRow], some "沒有可用的關鍵字組合"⟩) := by
  have ht : ∀ g ∈ gs, groupTerms g ≠ [] := by
    intro g hg
    rw [groupTerms_eq g (hc g hg).2.1]
    exact List.cons_ne_nil _ _
  have hrows : (autoGenerateConditions gs).rows
      = (enumIdx 0 gs).map
          (fun ig => fillConditionRow gs.length ig.1 (groupTerms ig.2)
            emptyConditionRow) :=
    autoGen_rows gs hne ht
  have hlen : (autoGenerateConditions gs).rows.length = gs.length := by
    rw [hrows, List.length_map, length_enumIdx]
  have hgetD : ∀ j, j < gs.length →
      (autoGenerateConditions gs).rows.getD j emptyConditionRow
        = fillConditionRow gs.length j
            (groupTerms (gs.getD j defaultGroup)) emptyConditionRow := by
    intro j hj
    rw [hrows]
    rw [getD_enumIdx_map _ gs 0 j defaultGroup emptyConditionRow hj]
    rw [Nat.zero_add]
  have htermsfact : ∀ j, j < gs.length →
      ∀ t ∈ groupTerms (gs.getD j defaultGroup), Clean t ∧ t ≠ "" := by
    intro j hj t htl
    have hg := hc _ (getD_mem gs j defaultGroup hj)
    rw [groupTerms_eq _ hg.2.1] at htl
    rcases List.mem_cons.mp htl with rfl | hsyn
    · exact ⟨hg.1, hg.2.1⟩
    · exact hg.2.2 t hsyn
  have hdropped : ∀ j, j < gs.length →
      ((autoGenerateConditions gs).rows.getD j emptyConditionRow).dropped
        = (groupTerms (gs.getD j defaultGroup)).foldl
            addKeywordToDropZone [] := by
    intro j hj
    rw [hgetD j hj]
    rfl
  have hmem : ∀ j, j < gs.length → ∀ t,
      t ∈ ((autoGenerateConditions gs).rows.getD j emptyConditionRow).dropped
        ↔ (t = (gs.getD j defaultGroup).keyword
            ∨ t ∈ (gs.getD j defaultGroup).synonyms) := by
    intro j hj t
    rw [hdropped j hj]
    rw [mem_foldl_addKeyword _ [] t
      (fun y hy => absurd hy (List.not_mem_nil y))
      (fun u hu => (htermsfact j hj u hu).1)]
    rw [groupTerms_eq _ (hc _ (getD_mem gs j defaultGroup hj)).2.1]
    simp
  have hgood : ∀ r ∈ (autoGenerateConditions gs).rows,
      r.dropped ≠ [] ∧ ∀ x ∈ r.dropped, Clean x ∧ x ≠ "" := by
    intro r hr
    rw [hrows] at hr
    rcases List.mem_map.mp hr with ⟨ig, hig, rfl⟩
    obtain ⟨a, g⟩ := ig
    rcases mem_enumIdx defaultGroup 0 gs (a, g) hig with ⟨j, hj, h1, h2⟩
    dsimp only at h1 h2
    subst h2
    have hmemterms : ∀ x,
        x ∈ (groupTerms (gs.getD j defaultGroup)).foldl
            addKeywordToDropZone []
          ↔ x ∈ ([] : List String)
              ∨ x ∈ groupTerms (gs.getD j defaultGroup) :=
      fun x => mem_foldl_addKeyword _ [] x
        (fun y hy => absurd hy (List.not_mem_nil y))
        (fun u hu => (htermsfact j hj u hu).1)
    constructor
    · have hkw : (gs.getD j defaultGroup).keyword
          ∈ (groupTerms (gs.getD j defaultGroup)).foldl
              addKeywordToDropZone [] := by
        rw [hmemterms]
        right
        rw [groupTerms_eq _ (hc _ (getD_mem gs j defaultGroup hj)).2.1]
        exact List.mem_cons_self _ _
      exact List.ne_nil_of_mem hkw
    · intro x hx
      have hxterms : x ∈ groupTerms (gs.getD j defaultGroup) := by
        rcases (hmemterms x).mp hx with hfalse | hterm
        · exact absurd hfalse (List.not_mem_nil x)
        · exact hterm
      exact htermsfact j hj x hxterms
  have hcollect : collectSearchConditions (autoGenerateConditions gs).rows
      = (enumIdx 0 (autoGenerateConditions gs).rows).map rowCondition :=
    collect_of_good _ hgood
  have hclen : (collectSearchConditions
      (autoGenerateConditions gs).rows).length = gs.length := by
    rw [hcollect, List.length_map, length_enumIdx, hlen]
  have hcgetD : ∀ j, j < gs.length →
      (collectSearchConditions (autoGenerateConditions gs).rows).getD j
          defaultSearchCondition
        = rowCondition (j, (autoGenerateConditions gs).rows.getD j
            emptyConditionRow) := by
    intro j hj
    rw [hcollect]
    rw [getD_enumIdx_map rowCondition _ 0 j emptyConditionRow
      defaultSearchCondition (by rw [hlen]; exact hj)]
    rw [Nat.zero_add]
  refine ⟨?_, hlen, ?_, hclen, ?_, rfl⟩
  · unfold autoGenerateConditions
    rw [if_neg (fun h0 => hne (List.length_eq_zero.mp h0))]
  · intro j hj
    refine ⟨?_, ?_, hmem j hj⟩
    · rw [hgetD j hj]
      rfl
    · intro hj2
      rw [hgetD j hj]
      show (if j < gs.length - 1 then "AND" else emptyConditionRow.logic)
        = "AND"
      rw [if_pos hj2]
  · intro j hj
    refine ⟨?_, ?_, ?_⟩
    · rw [hcgetD j hj]
      rfl
    · rw [hcgetD j hj, hgetD j hj]
      rfl
    · exact (hgood _ (getD_mem _ j emptyConditionRow
        (by rw [hlen]; exact hj))).1

/-- C3 witness: the claim's two-group example — exactly 2 condition rows,
both collected, first row's logic `"AND"`, fields `"AB"`. -/
theorem C3_witness :
    (demoKeywordGroups ≠ []
      ∧ ∀ g ∈ demoKeywordGroups, Clean g.keyword ∧ g.keyword ≠ ""
          ∧ ∀ t ∈ g.synonyms, Clean t ∧ t ≠ "")
    ∧ (autoGenerateConditions demoKeywordGroups).errorReported = none
    ∧ (autoGenerateConditions demoKeywordGroups).rows.length = 2
    ∧ (collectSearchConditions
        (autoGenerateConditions demoKeywordGroups).rows).length = 2
    ∧ ((autoGenerateConditions demoKeywordGroups).rows.getD 0
        emptyConditionRow).logic = "AND"
    ∧ ((collectSearchConditions
        (autoGenerateConditions demoKeywordGroups).rows).getD 0
          defaultSearchCondition).field = "AB"
    ∧ ((autoGenerateConditions demoKeywordGroups).rows.getD 0
        emptyConditionRow).dropped ≠ [] :=
  ⟨⟨by decide, by decide⟩,
    (C3_autoGenerate demoKeywordGroups (by decide) (by decide)).1,
    Eq.trans
      (C3_autoGenerate demoKeywordGroups (by decide) (by decide)).2.1 rfl,
    Eq.trans
      (C3_autoGenerate demoKeywordGroups (by decide)
        (by decide)).2.2.2.1 rfl,
    ((C3_autoGenerate demoKeywordGroups (by decide) (by decide)).2.2.1 0
      (by decide)).2.1 (by decide),
    ((C3_autoGenerate demoKeywordGroups (by decide)
      (by decide)).2.2.2.2.1 0 (by decide)).2.1,
    ((C3_autoGenerate demoKeywordGroups (by decide)
      (by decide)).2.2.2.2.1 0 (by decide)).2.2⟩

end PatentSearch
